import Mathlib

/-!
Verification development for the OmphalOS repository: a shallow embedding in
Lean 4 of the kernel's free-list heap allocator (`src/kernel/src/allocator.rs`),
the round-robin task manager (`src/kernel/src/task/mod.rs`), and the RV32
emulator (`src/riscv/src/{cpu,bus,dram,exception}.rs`), together with theorems
settling the specification claims about them.

Conventions of the embedding:
* machine integers (`u32` / 32-bit `usize`) are `Nat` with explicit `% 2 ^ 32`
  where wrap-around matters, signed values are `Int`;
* Rust panics (failed asserts, out-of-bounds indexing, `unwrap`, `panic!`) are
  modelled by `Option`, with `none` standing for a panic;
* fallible operations returning `Result<T, E>` are `Except E T` under the
  `Option` panic layer.
-/

namespace OmphalOS

/-! ## Heap allocator (`src/kernel/src/allocator.rs`)

The free list is a LIFO singly linked list of nodes placed in-place at the
start of each free region.  Following §9 of the design notes, a node is
represented here by the region it heads: a pair `(start address, size)`; the
order of the Lean list is the order of the linked list.  On the 32-bit
targets the kernel builds for, `ListNode { next: Option<&'static mut ListNode>,
size: usize }` occupies two 4-byte words. -/

/-- Size of `ListNode` in bytes (`mem::size_of::<ListNode>()` on the 32-bit
targets: a 4-byte nullable reference plus a 4-byte `usize`). -/
def LIST_NODE_SIZE : Nat := 8

/-- Alignment of `ListNode` (`mem::align_of::<ListNode>()`: pointer
alignment on the 32-bit targets). -/
def listNodeAlign : Nat := 4

/-- Largest `usize` value on the 32-bit targets. -/
def usizeMax : Nat := 2 ^ 32 - 1

/-- Embedding of `align_up(addr, align)`.  The source computes
`(addr + align - 1) & !(align - 1)` for a power-of-two `align`, which equals
rounding `addr + align - 1` down to the nearest multiple of `align`.  (The
source addition is an unchecked `usize` addition; the wrap-around regime
`addr + align > usize::MAX` is excluded by hypotheses where it matters.) -/
def align_up (addr align : Nat) : Nat :=
  (addr + align - 1) - (addr + align - 1) % align

/-- A free region `(start address, size in bytes)`. -/
abbrev Region := Nat × Nat

/-- Embedding of `HeapAllocatorInner::add_free_region`.  `none` models the
failed `assert_eq!` (misaligned address); a region smaller than a node is
dropped with a warning; otherwise the node is linked at the head (LIFO). -/
def add_free_region (l : List Region) (addr size : Nat) : Option (List Region) :=
  if align_up addr listNodeAlign ≠ addr then none
  else if size < LIST_NODE_SIZE then some l
  else some ((addr, size) :: l)

/-- Embedding of `HeapAllocatorInner::alloc_from_region`: `none` is `Err(())`.
`r.1 + r.2` is `region.end_addr()`; the overflow test models
`alloc_start.checked_add(size)`. -/
def alloc_from_region (r : Region) (size align : Nat) : Option Nat :=
  let alloc_start := align_up r.1 align
  if usizeMax < alloc_start + size then none
  else if r.1 + r.2 < alloc_start + size then none
  else if 0 < r.1 + r.2 - (alloc_start + size) ∧
          r.1 + r.2 - (alloc_start + size) < LIST_NODE_SIZE then none
  else some alloc_start

/-- Embedding of `HeapAllocatorInner::find_region`: first-fit scan from the
head; on success the node is unlinked and returned together with the start
address and the remaining list (order of the other nodes preserved). -/
def find_region : List Region → Nat → Nat → Option (Region × Nat × List Region)
  | [], _, _ => none
  | r :: rest, size, align =>
    match alloc_from_region r size align with
    | some s => some (r, s, rest)
    | none =>
      match find_region rest size align with
      | some (r', s', rest') => some (r', s', r :: rest')
      | none => none

/-- Embedding of `HeapAllocatorInner::size_align`: the alignment is raised to
at least the node alignment (`Layout::align_to`), the size is padded to a
multiple of the alignment (`Layout::pad_to_align`) and raised to at least the
node size. -/
def size_align (lsize lalign : Nat) : Nat × Nat :=
  let align := max lalign listNodeAlign
  (max (align_up lsize align) LIST_NODE_SIZE, align)

/-- Embedding of `HeapAllocatorInner::alloc` for a layout `(lsize, lalign)`.
The result is `none` for a panic (`expect("overflow")`, or the assert inside
the re-registration of trailing excess), and otherwise the new free list
together with the returned pointer (`none` inside models the null pointer). -/
def alloc (l : List Region) (lsize lalign : Nat) :
    Option (List Region × Option Nat) :=
  let sa := size_align lsize lalign
  match find_region l sa.1 sa.2 with
  | none => some (l, none)
  | some (r, alloc_start, rest) =>
    if usizeMax < alloc_start + sa.1 then none
    else
      let excess := r.1 + r.2 - (alloc_start + sa.1)
      if 0 < excess then
        match add_free_region rest (alloc_start + sa.1) excess with
        | none => none
        | some l2 => some (l2, some alloc_start)
      else some (rest, some alloc_start)

/-- Embedding of `HeapAllocatorInner::dealloc`: re-registers
`[ptr, ptr + normalised size)` as a free region. -/
def dealloc (l : List Region) (ptr lsize lalign : Nat) : Option (List Region) :=
  let sa := size_align lsize lalign
  add_free_region l ptr sa.1

end OmphalOS

namespace OmphalOS

/-! ### Allocator theorems -/

/-- Helper: `align_up` is the identity on multiples of 4. -/
theorem align_up_four_of_dvd {a : Nat} (h : a % 4 = 0) : align_up a 4 = a := by
  unfold align_up
  omega

/-- C1: with a single 1024-byte region at node-aligned `A`,
`alloc(Layout{size:128, align:node_align})` returns `A` and leaves the free
list `[(A+128, 896)]`; a second identical `alloc` returns `A + 128` and leaves
`[(A+256, 768)]`; freeing the first allocation leaves exactly two nodes: a
128-byte node at `A` and a 768-byte node at `A + 256`. -/
theorem alloc_twice_dealloc_c1 (A : Nat) (hA : A % 4 = 0)
    (hfit : A + 1024 ≤ usizeMax) :
    alloc [(A, 1024)] 128 4 = some ([(A + 128, 896)], some A) ∧
    alloc [(A + 128, 896)] 128 4 = some ([(A + 256, 768)], some (A + 128)) ∧
    dealloc [(A + 256, 768)] A 128 4 = some [(A, 128), (A + 256, 768)] := by
  have hsa : size_align 128 4 = (128, 4) := by decide
  have h1 : align_up A 4 = A := align_up_four_of_dvd hA
  have h2 : align_up (A + 128) 4 = A + 128 := align_up_four_of_dvd (by omega)
  have hu : usizeMax = 2 ^ 32 - 1 := rfl
  have hL : LIST_NODE_SIZE = 8 := rfl
  have hNA : listNodeAlign = 4 := rfl
  refine ⟨?_, ?_, ?_⟩
  · have hfind : find_region [(A, 1024)] 128 4 = some ((A, 1024), A, []) := by
      unfold find_region alloc_from_region
      rw [h1]
      rw [if_neg (by rw [hu] at hfit ⊢; omega),
        if_neg (by omega), if_neg (by rw [hL]; omega)]
    simp only [alloc, hsa, hfind]
    rw [if_neg (by rw [hu] at hfit ⊢; omega)]
    rw [if_pos (by omega : (0 : Nat) < A + 1024 - (A + 128))]
    unfold add_free_region
    rw [hNA, hL]
    rw [if_neg (by simp only [h2]; omega), if_neg (by omega)]
    have : A + 1024 - (A + 128) = 896 := by omega
    rw [this]
  · have h3 : align_up (A + 128 + 128) 4 = A + 128 + 128 :=
      align_up_four_of_dvd (by omega)
    have hfind : find_region [(A + 128, 896)] 128 4 =
        some ((A + 128, 896), A + 128, []) := by
      unfold find_region alloc_from_region
      rw [h2]
      rw [if_neg (by rw [hu] at hfit ⊢; omega),
        if_neg (by omega), if_neg (by rw [hL]; omega)]
    simp only [alloc, hsa, hfind]
    rw [if_neg (by rw [hu] at hfit ⊢; omega)]
    rw [if_pos (by omega : (0 : Nat) < A + 128 + 896 - (A + 128 + 128))]
    unfold add_free_region
    rw [hNA, hL]
    rw [if_neg (by simp only [h3]; omega), if_neg (by omega)]
    have e1 : A + 128 + 128 = A + 256 := by omega
    have e2 : A + 128 + 896 - (A + 128 + 128) = 768 := by omega
    rw [e1, e2]
  · simp only [dealloc, hsa]
    unfold add_free_region
    rw [hNA, hL]
    rw [if_neg (by simp only [h1]; omega), if_neg (by omega)]

/-- Witness for `alloc_twice_dealloc_c1` at the concrete address `A = 64`. -/
theorem alloc_twice_dealloc_c1_witness :
    alloc [(64, 1024)] 128 4 = some ([(64 + 128, 896)], some 64) ∧
    alloc [(64 + 128, 896)] 128 4 = some ([(64 + 256, 768)], some (64 + 128)) ∧
    dealloc [(64 + 256, 768)] 64 128 4 = some [(64, 128), (64 + 256, 768)] :=
  alloc_twice_dealloc_c1 64 (by decide) (by decide)

/-- C7 counterexample: `add_free_region(8, 9)` accepts the region (the address
is node-aligned and `9 ≥ node_size = 8`), but a subsequent
`alloc(size = 9, align = node_align)` pads the request to 12 bytes, rejects the
9-byte region, and returns the null pointer instead of `8`. -/
theorem add_then_alloc_fails_c7 :
    add_free_region [] 8 9 = some [(8, 9)] ∧
    alloc [(8, 9)] 9 4 = some ([(8, 9)], none) := by
  constructor <;> decide

/-- C7 (amended): for a node-aligned `addr` and a size that is at least the
node size and a multiple of the node alignment (so that `pad_to_align` does
not enlarge it), with `addr + size` within the address space, a subsequent
`alloc(size, align = node_align)` after `add_free_region(addr, size)` succeeds
and returns exactly `addr`, consuming the region whole. -/
theorem add_then_alloc_returns_addr_c7 (l : List Region) (addr size : Nat)
    (haddr : addr % 4 = 0) (hsize : LIST_NODE_SIZE ≤ size)
    (hmul : size % 4 = 0) (hfit : addr + size ≤ usizeMax) :
    add_free_region l addr size = some ((addr, size) :: l) ∧
    alloc ((addr, size) :: l) size 4 = some (l, some addr) := by
  have h1 : align_up addr 4 = addr := align_up_four_of_dvd haddr
  have hL : LIST_NODE_SIZE = 8 := rfl
  have hNA : listNodeAlign = 4 := rfl
  have hu : usizeMax = 2 ^ 32 - 1 := rfl
  rw [hL] at hsize
  constructor
  · unfold add_free_region
    rw [hNA, hL]
    rw [if_neg (by simp only [h1]; omega), if_neg (by omega)]
  · have hsa : size_align size 4 = (size, 4) := by
      have h4 : align_up size 4 = size := align_up_four_of_dvd hmul
      show (align_up size (max listNodeAlign listNodeAlign) ⊔ LIST_NODE_SIZE,
        max (4 : Nat) listNodeAlign) = (size, 4)
      rw [hNA, hL]
      have e1 : max (4 : Nat) 4 = 4 := rfl
      rw [e1, h4, Nat.max_eq_left (by omega : 8 ≤ size)]
    have hfind : find_region ((addr, size) :: l) size 4 =
        some ((addr, size), addr, l) := by
      unfold find_region alloc_from_region
      rw [h1]
      rw [if_neg (by rw [hu] at hfit ⊢; omega),
        if_neg (by omega), if_neg (by omega)]
    simp only [alloc, hsa, hfind]
    rw [if_neg (by rw [hu] at hfit ⊢; omega)]
    rw [if_neg (by omega)]

/-- Witness for `add_then_alloc_returns_addr_c7` at `addr = 16`, `size = 24`. -/
theorem add_then_alloc_returns_addr_c7_witness :
    add_free_region [] 16 24 = some [(16, 24)] ∧
    alloc [(16, 24)] 24 4 = some ([], some 16) :=
  add_then_alloc_returns_addr_c7 [] 16 24 (by decide) (by decide) (by decide)
    (by decide)

end OmphalOS

namespace OmphalOS

/-! ## Bus and DRAM (`src/riscv/src/bus.rs`, `src/riscv/src/dram.rs`)

`Dram { dram: Vec<u8>, .. }` is a byte list (each entry `< 256` whenever it
was produced by the operations below); `code_size` plays no role in reads and
writes and is omitted.  Out-of-bounds `Vec` indexing is a Rust panic, modelled
by `none`. -/

/-- All the exception kinds (`exception.rs`). -/
inductive Exception where
  | instructionAddressMisaligned
  | instructionAccessFault
  | illegalInstruction (inst : Nat)
  | breakpoint
  | loadAddressMisaligned
  | loadAccessFault
  | storeAMOAddressMisaligned
  | storeAMOAccessFault
  | environmentCallFromUMode
  | environmentCallFromMMode
  | instructionPageFault (val : Nat)
  | loadPageFault (val : Nat)
  | storeAMOPageFault (val : Nat)
deriving DecidableEq, Repr

/-- The address at which DRAM starts (`bus.rs`). -/
def DRAM_BASE : Nat := 0x10000

/-- Default memory size, 32 KiB (`dram.rs`). -/
def DRAM_SIZE : Nat := 32 * 1024

/-- The address at which DRAM ends; note the `Bus` match arm
`DRAM_BASE..=DRAM_END` treats this bound as inclusive. -/
def DRAM_END : Nat := DRAM_BASE + DRAM_SIZE

/-- Embedding of `Dram::read8`: `self.dram[index]` panics when out of
bounds. -/
def dram_read8 (d : List Nat) (addr : Nat) : Option Nat :=
  d[addr - DRAM_BASE]?

/-- Embedding of `Dram::read16` (little endian). -/
def dram_read16 (d : List Nat) (addr : Nat) : Option Nat :=
  match d[addr - DRAM_BASE]?, d[addr - DRAM_BASE + 1]? with
  | some b0, some b1 => some (b0 ||| b1 <<< 8)
  | _, _ => none

/-- Embedding of `Dram::read32` (little endian). -/
def dram_read32 (d : List Nat) (addr : Nat) : Option Nat :=
  match d[addr - DRAM_BASE]?, d[addr - DRAM_BASE + 1]?,
      d[addr - DRAM_BASE + 2]?, d[addr - DRAM_BASE + 3]? with
  | some b0, some b1, some b2, some b3 =>
    some (b0 ||| b1 <<< 8 ||| b2 <<< 16 ||| b3 <<< 24)
  | _, _, _, _ => none

/-- Embedding of `Dram::write8`; `val as u8` keeps the low byte. -/
def dram_write8 (d : List Nat) (addr val : Nat) : Option (List Nat) :=
  if addr - DRAM_BASE < d.length then
    some (d.set (addr - DRAM_BASE) (val % 2 ^ 8))
  else none

/-- Embedding of `Dram::write16` (little endian, byte by byte; each `Vec`
store can panic). -/
def dram_write16 (d : List Nat) (addr val : Nat) : Option (List Nat) :=
  if addr - DRAM_BASE < d.length then
    if addr - DRAM_BASE + 1 < (d.set (addr - DRAM_BASE) (val &&& 0xff)).length then
      some ((d.set (addr - DRAM_BASE) (val &&& 0xff)).set
        (addr - DRAM_BASE + 1) (val >>> 8 &&& 0xff))
    else none
  else none

/-- Embedding of `Dram::write32` (little endian, byte by byte; `d1`, `d2`,
`d3` are the intermediate vector states). -/
def dram_write32 (d : List Nat) (addr val : Nat) : Option (List Nat) :=
  if addr - DRAM_BASE < d.length then
    if addr - DRAM_BASE + 1 < (d.set (addr - DRAM_BASE) (val &&& 0xff)).length then
      if addr - DRAM_BASE + 2 <
          ((d.set (addr - DRAM_BASE) (val &&& 0xff)).set
            (addr - DRAM_BASE + 1) (val >>> 8 &&& 0xff)).length then
        if addr - DRAM_BASE + 3 <
            (((d.set (addr - DRAM_BASE) (val &&& 0xff)).set
              (addr - DRAM_BASE + 1) (val >>> 8 &&& 0xff)).set
              (addr - DRAM_BASE + 2) (val >>> 16 &&& 0xff)).length then
          some ((((d.set (addr - DRAM_BASE) (val &&& 0xff)).set
            (addr - DRAM_BASE + 1) (val >>> 8 &&& 0xff)).set
            (addr - DRAM_BASE + 2) (val >>> 16 &&& 0xff)).set
            (addr - DRAM_BASE + 3) (val >>> 24 &&& 0xff))
        else none
      else none
    else none
  else none

/-- Embedding of `Dram::read`: dispatch on the access size; any other size is
`Err(LoadAccessFault)`. -/
def dram_read (d : List Nat) (addr size : Nat) : Option (Except Exception Nat) :=
  if size = 8 then (dram_read8 d addr).map Except.ok
  else if size = 16 then (dram_read16 d addr).map Except.ok
  else if size = 32 then (dram_read32 d addr).map Except.ok
  else some (Except.error Exception.loadAccessFault)

/-- Embedding of `Dram::write`: dispatch on the access size; any other size is
`Err(StoreAMOAccessFault)`. -/
def dram_write (d : List Nat) (addr val size : Nat) :
    Option (Except Exception (List Nat)) :=
  if size = 8 then (dram_write8 d addr val).map Except.ok
  else if size = 16 then (dram_write16 d addr val).map Except.ok
  else if size = 32 then (dram_write32 d addr val).map Except.ok
  else some (Except.error Exception.storeAMOAccessFault)

/-- Embedding of `Bus::read`: the match arm `DRAM_BASE..=DRAM_END` routes the
inclusive range to the DRAM, everything else is `Err(LoadAccessFault)`. -/
def bus_read (d : List Nat) (addr size : Nat) : Option (Except Exception Nat) :=
  if DRAM_BASE ≤ addr ∧ addr ≤ DRAM_END then dram_read d addr size
  else some (Except.error Exception.loadAccessFault)

/-- Embedding of `Bus::write`. -/
def bus_write (d : List Nat) (addr val size : Nat) :
    Option (Except Exception (List Nat)) :=
  if DRAM_BASE ≤ addr ∧ addr ≤ DRAM_END then dram_write d addr val size
  else some (Except.error Exception.storeAMOAccessFault)

/-- The DRAM contents of a freshly created `Dram` (32 KiB of zeroes). -/
def stdDram : List Nat := List.replicate 32768 0

end OmphalOS

namespace OmphalOS

/-! ### Bus and DRAM theorems -/

/-- Helper: an `or` of disjoint bit ranges is an addition. -/
theorem lor_shiftLeft_eq_add {x : Nat} (y k : Nat) (h : x < 2 ^ k) :
    x ||| y <<< k = y <<< k + x := by
  rw [Nat.shiftLeft_eq, Nat.mul_comm, Nat.lor_comm, ← Nat.mul_add_lt_is_or h]

/-- Helper: the fresh DRAM holds exactly `DRAM_SIZE` bytes. -/
theorem stdDram_length : stdDram.length = 32768 := by
  rw [stdDram, List.length_replicate]

/-- C6: the `Bus` routes the inclusive range `[DRAM_BASE, DRAM_BASE +
DRAM_SIZE]` to the DRAM, but the DRAM vector holds only `DRAM_SIZE` bytes, so
the access at `DRAM_BASE + DRAM_SIZE` indexes `dram[32768]` out of bounds and
panics (`none`), instead of returning `Ok`.  Accesses outside the range do
fault as claimed. -/
theorem bus_read_end_panics_c6 :
    bus_read stdDram (DRAM_BASE + DRAM_SIZE) 8 = none ∧
    bus_read stdDram (DRAM_BASE - 1) 8 =
      some (Except.error Exception.loadAccessFault) ∧
    bus_write stdDram (DRAM_BASE + DRAM_SIZE + 1) 0 8 =
      some (Except.error Exception.storeAMOAccessFault) := by
  refine ⟨?_, ?_, ?_⟩
  · rw [bus_read, if_pos (by constructor <;> decide), dram_read, if_pos rfl,
      dram_read8]
    rw [List.getElem?_eq_none (by rw [stdDram_length]; decide)]
    rfl
  · rw [bus_read, if_neg (by decide)]
  · rw [bus_write, if_neg (by decide)]

/-- Helper: recombining the low two little-endian bytes of `v`. -/
theorem lor_bytes16 (v : Nat) :
    v % 2 ^ 8 ||| (v / 2 ^ 8 % 2 ^ 8) <<< 8 = v % 2 ^ 16 := by
  rw [lor_shiftLeft_eq_add _ 8 (Nat.mod_lt _ (by norm_num)), Nat.shiftLeft_eq]
  omega

/-- Helper: recombining the third little-endian byte of `v`. -/
theorem lor_bytes24 (v : Nat) :
    v % 2 ^ 16 ||| (v / 2 ^ 16 % 2 ^ 8) <<< 16 = v % 2 ^ 24 := by
  rw [lor_shiftLeft_eq_add _ 16 (Nat.mod_lt _ (by norm_num)), Nat.shiftLeft_eq]
  omega

/-- Helper: recombining the fourth little-endian byte of `v`. -/
theorem lor_bytes32 (v : Nat) :
    v % 2 ^ 24 ||| (v / 2 ^ 24 % 2 ^ 8) <<< 24 = v % 2 ^ 32 := by
  rw [lor_shiftLeft_eq_add _ 24 (Nat.mod_lt _ (by norm_num)), Nat.shiftLeft_eq]
  omega

/-- C9: for every store size in {8, 16, 32} and every in-range address,
writing `v` and reading back at the same address and size yields `v` masked to
the low `size` bits (little-endian byte order). -/
theorem write_read_roundtrip_c9 (d : List Nat) (hd : d.length = 32768)
    (a v sz : Nat) (hsz : sz = 8 ∨ sz = 16 ∨ sz = 32)
    (hlo : DRAM_BASE ≤ a) (hhi : a + sz / 8 ≤ DRAM_BASE + DRAM_SIZE) :
    ∃ d', bus_write d a v sz = some (Except.ok d') ∧
      bus_read d' a sz = some (Except.ok (v % 2 ^ sz)) := by
  have hB : DRAM_BASE = 65536 := rfl
  have hS : DRAM_SIZE = 32768 := rfl
  have hE : DRAM_END = 98304 := rfl
  have h255 : (255 : Nat) = 2 ^ 8 - 1 := rfl
  rcases hsz with h | h | h <;> subst h
  · have hrange : DRAM_BASE ≤ a ∧ a ≤ DRAM_END := ⟨hlo, by omega⟩
    have hi : a - DRAM_BASE < d.length := by omega
    refine ⟨d.set (a - DRAM_BASE) (v % 2 ^ 8), ?_, ?_⟩
    · rw [bus_write, if_pos hrange, dram_write, if_pos rfl, dram_write8,
        if_pos hi]
      rfl
    · rw [bus_read, if_pos hrange, dram_read, if_pos rfl, dram_read8,
        List.getElem?_set_self hi]
      rfl
  · have hrange : DRAM_BASE ≤ a ∧ a ≤ DRAM_END := ⟨hlo, by omega⟩
    have hi0 : a - DRAM_BASE < d.length := by omega
    have hi1 : a - DRAM_BASE + 1 < (d.set (a - DRAM_BASE) (v &&& 0xff)).length := by
      rw [List.length_set]; omega
    refine ⟨(d.set (a - DRAM_BASE) (v &&& 0xff)).set
        (a - DRAM_BASE + 1) (v >>> 8 &&& 0xff), ?_, ?_⟩
    · rw [bus_write, if_pos hrange, dram_write, if_neg (by decide),
        if_pos rfl, dram_write16, if_pos hi0, if_pos hi1]
      rfl
    · rw [bus_read, if_pos hrange, dram_read, if_neg (by decide), if_pos rfl,
        dram_read16]
      rw [List.getElem?_set_ne (by omega), List.getElem?_set_self hi0,
        List.getElem?_set_self hi1]
      show some (Except.ok ((v &&& 255) ||| (v >>> 8 &&& 255) <<< 8)) = _
      rw [h255, Nat.and_pow_two_sub_one_eq_mod, Nat.and_pow_two_sub_one_eq_mod,
        Nat.shiftRight_eq_div_pow, lor_bytes16]
  · have hrange : DRAM_BASE ≤ a ∧ a ≤ DRAM_END := ⟨hlo, by omega⟩
    have hi0 : a - DRAM_BASE < d.length := by omega
    have hi1 : a - DRAM_BASE + 1 <
        (d.set (a - DRAM_BASE) (v &&& 0xff)).length := by
      rw [List.length_set]; omega
    have hi2 : a - DRAM_BASE + 2 <
        ((d.set (a - DRAM_BASE) (v &&& 0xff)).set
          (a - DRAM_BASE + 1) (v >>> 8 &&& 0xff)).length := by
      rw [List.length_set, List.length_set]; omega
    have hi3 : a - DRAM_BASE + 3 <
        (((d.set (a - DRAM_BASE) (v &&& 0xff)).set
          (a - DRAM_BASE + 1) (v >>> 8 &&& 0xff)).set
          (a - DRAM_BASE + 2) (v >>> 16 &&& 0xff)).length := by
      rw [List.length_set, List.length_set, List.length_set]; omega
    refine ⟨(((d.set (a - DRAM_BASE) (v &&& 0xff)).set
        (a - DRAM_BASE + 1) (v >>> 8 &&& 0xff)).set
        (a - DRAM_BASE + 2) (v >>> 16 &&& 0xff)).set
        (a - DRAM_BASE + 3) (v >>> 24 &&& 0xff), ?_, ?_⟩
    · rw [bus_write, if_pos hrange, dram_write, if_neg (by decide),
        if_neg (by decide), if_pos rfl, dram_write32,
        if_pos hi0, if_pos hi1, if_pos hi2, if_pos hi3]
      rfl
    · rw [bus_read, if_pos hrange, dram_read, if_neg (by decide),
        if_neg (by decide), if_pos rfl, dram_read32]
      rw [List.getElem?_set_ne (by omega), List.getElem?_set_ne (by omega),
        List.getElem?_set_ne (by omega), List.getElem?_set_self hi0,
        List.getElem?_set_ne (by omega), List.getElem?_set_ne (by omega),
        List.getElem?_set_self hi1,
        List.getElem?_set_ne (by omega), List.getElem?_set_self hi2,
        List.getElem?_set_self hi3]
      show some (Except.ok ((v &&& 255) ||| (v >>> 8 &&& 255) <<< 8
        ||| (v >>> 16 &&& 255) <<< 16 ||| (v >>> 24 &&& 255) <<< 24)) = _
      rw [h255, Nat.and_pow_two_sub_one_eq_mod, Nat.and_pow_two_sub_one_eq_mod,
        Nat.and_pow_two_sub_one_eq_mod, Nat.and_pow_two_sub_one_eq_mod,
        Nat.shiftRight_eq_div_pow, Nat.shiftRight_eq_div_pow,
        Nat.shiftRight_eq_div_pow, lor_bytes16, lor_bytes24, lor_bytes32]

/-- Witness for `write_read_roundtrip_c9` at address `DRAM_BASE`, 32 bits. -/
theorem write_read_roundtrip_c9_witness :
    ∃ d', bus_write stdDram DRAM_BASE 0x11223344 32 = some (Except.ok d') ∧
      bus_read d' DRAM_BASE 32 = some (Except.ok (0x11223344 % 2 ^ 32)) :=
  write_read_roundtrip_c9 stdDram stdDram_length DRAM_BASE 0x11223344 32
    (by norm_num) (by decide) (by decide)

end OmphalOS

namespace OmphalOS

/-! ## Task manager (`src/kernel/src/task/mod.rs`)

Thread contexts are opaque to the scheduler (it only copies the raw pointers),
so a context pointer is represented by a `Nat`.  The interrupt-safe
current-context cell is threaded explicitly as a value `ctx`.  A Rust
`% 0` or an out-of-bounds `Vec` index panics (`none`); `unwrap` on the result
of `find` likewise. -/

/-- Embedding of `Thread { id, context: *mut ThreadContext }`. -/
structure Thread where
  id : Nat
  context : Nat
deriving DecidableEq, Repr

/-- Embedding of `Process`. -/
structure Process where
  id : Nat
  name : String
  threads : List Thread
  current_thread_id : Nat
  current_thread_index : Nat
deriving DecidableEq, Repr

/-- Embedding of `TaskManager`. -/
structure TaskManager where
  processes : List Process
  current_process_id : Nat
  current_process_index : Nat
  current_thread_id : Nat
deriving DecidableEq, Repr

/-- Embedding of `Process::next_thread`: advance `current_thread_index`
round-robin, record the new thread's id in the process, and return it. -/
def Process.next_thread (p : Process) : Option (Process × Thread) :=
  if p.threads.length = 0 then none
  else
    match p.threads[(p.current_thread_index + 1) % p.threads.length]? with
    | none => none
    | some t =>
      some ({ p with
                current_thread_index := (p.current_thread_index + 1) % p.threads.length,
                current_thread_id := t.id }, t)

/-- Embedding of `Process::get_current_thread`:
`self.threads[self.current_thread_index]` (panics out of bounds). -/
def Process.get_current_thread (p : Process) : Option Thread :=
  p.threads[p.current_thread_index]?

/-- Embedding of `TaskManager::next_process`: advance `current_process_index`
round-robin and record the new process's id and its current thread id. -/
def TaskManager.next_process (tm : TaskManager) : Option (TaskManager × Process) :=
  if tm.processes.length = 0 then none
  else
    match tm.processes[(tm.current_process_index + 1) % tm.processes.length]? with
    | none => none
    | some p =>
      some ({ tm with
                current_process_index := (tm.current_process_index + 1) % tm.processes.length,
                current_process_id := p.id,
                current_thread_id := p.current_thread_id }, p)

/-- Embedding of `TaskManager::get_current_process`, which mutates through the
first process whose id equals `current_process_id`: return its index. -/
def TaskManager.get_current_process_idx (tm : TaskManager) : Option Nat :=
  tm.processes.findIdx? (fun p => p.id = tm.current_process_id)

/-- Embedding of `next_task` (the round-robin scheduler): `ctx` is the value
of the global current-context cell `CURRENT_CTX` on entry, and the returned
`Nat` is its value on exit. -/
def next_task (tm : TaskManager) (ctx : Nat) : Option (TaskManager × Nat) :=
  match tm.get_current_process_idx with
  | none => none
  | some j =>
    match tm.processes[j]? with
    | none => none
    | some p =>
      match p.next_thread with
      | none => none
      | some (p2, t) =>
        if t.id ≠ tm.current_thread_id then
          some ({ tm with processes := tm.processes.set j p2 }, t.context)
        else
          match TaskManager.next_process { tm with processes := tm.processes.set j p2 } with
          | none => none
          | some (tm2, q) =>
            if q.id ≠ tm.current_process_id then
              match q.get_current_thread with
              | none => none
              | some tq => some (tm2, tq.context)
            else some (tm2, ctx)

/-- A reachable scheduler state used as a concrete test input: the kernel
process (id 0) holding the kernel thread `t0` (id 0, context pointer 100) and
one added thread `t1` (id 1, context pointer 101); this is the state after
`init_kernel_task()` followed by `add_thread` of `t1`. -/
def tmTwoThreads : TaskManager :=
  { processes := [{ id := 0, name := "kernel",
                    threads := [{ id := 0, context := 100 },
                                { id := 1, context := 101 }],
                    current_thread_id := 0, current_thread_index := 0 }],
    current_process_id := 0, current_process_index := 0,
    current_thread_id := 0 }

/-- The projection named by the claim: the context pointer of
`processes[current_process_index].threads[current_thread_index]`. -/
def current_indexed_context (tm : TaskManager) : Option Nat :=
  match tm.processes[tm.current_process_index]? with
  | none => none
  | some p =>
    match p.threads[p.current_thread_index]? with
    | none => none
    | some t => some t.context

end OmphalOS

namespace OmphalOS

/-! ### Task manager theorems -/

/-- C8: starting from the reachable two-thread state, the first `next_task`
switches the context cell to thread 1 but leaves `TaskManager.current_thread_id`
stale (still 0), so the second `next_task` believes no thread switch happened,
advances `current_thread_index` back to 0 without touching the context cell,
and finishes with the context cell holding thread 1's context (101) while
`processes[current_process_index].threads[current_thread_index]` is thread 0
(context 100): the claimed invariant fails. -/
theorem next_task_desync_c8 :
    (match next_task tmTwoThreads 100 with
      | none => none
      | some (tm1, c1) =>
        match next_task tm1 c1 with
        | none => none
        | some (tm2, c2) => some (c2, current_indexed_context tm2)) =
      some (101, some 100) := by
  rfl

/-- The structural content of a process: everything `next_task` must leave
unchanged per C10 (the id, the name, and the full thread list with every
thread id and context). -/
def process_shape (p : Process) : Nat × String × List Thread :=
  (p.id, p.name, p.threads)

/-- Helper: `TaskManager::next_process` never touches the process list
itself. -/
theorem next_process_processes (tm tm2 : TaskManager) (q : Process)
    (h : tm.next_process = some (tm2, q)) : tm2.processes = tm.processes := by
  unfold TaskManager.next_process at h
  by_cases h0 : tm.processes.length = 0
  · rw [if_pos h0] at h; exact Option.noConfusion h
  · rw [if_neg h0] at h
    cases hg : tm.processes[(tm.current_process_index + 1) %
        tm.processes.length]? with
    | none => simp only [hg] at h; exact Option.noConfusion h
    | some p =>
      simp only [hg, Option.some.injEq, Prod.mk.injEq] at h
      rw [← h.1]

/-- C10 (amended): whenever `next_task` completes, it neither adds, removes
nor reorders processes or threads, and every thread id and saved context is
unchanged: each process keeps its id, name and exact thread list.  (Only the
TaskManager bookkeeping fields, each process's `current_thread_index` AND
`current_thread_id`, and the context cell may change.) -/
theorem next_task_frame_c10 (tm : TaskManager) (ctx : Nat)
    (tm2 : TaskManager) (ctx2 : Nat)
    (h : next_task tm ctx = some (tm2, ctx2)) :
    tm2.processes.length = tm.processes.length ∧
    ∀ i : Nat, (tm2.processes[i]?).map process_shape =
      (tm.processes[i]?).map process_shape := by
  unfold next_task at h
  cases hj : tm.get_current_process_idx with
  | none => simp only [hj] at h; exact Option.noConfusion h
  | some j =>
  simp only [hj] at h
  cases hp : tm.processes[j]? with
  | none => simp only [hp] at h; exact Option.noConfusion h
  | some p =>
  simp only [hp] at h
  cases hnt : p.next_thread with
  | none => simp only [hnt] at h; exact Option.noConfusion h
  | some p2t =>
  obtain ⟨p2, t⟩ := p2t
  simp only [hnt] at h
  have hshape : process_shape p2 = process_shape p := by
    unfold Process.next_thread at hnt
    by_cases h0 : p.threads.length = 0
    · rw [if_pos h0] at hnt; exact absurd hnt (by simp)
    · rw [if_neg h0] at hnt
      cases hg : p.threads[(p.current_thread_index + 1) % p.threads.length]? with
      | none => simp only [hg] at hnt; exact Option.noConfusion hnt
      | some t2 =>
        simp only [hg, Option.some.injEq, Prod.mk.injEq] at hnt
        rw [← hnt.1]
        rfl
  have hset : ∀ i : Nat, ((tm.processes.set j p2)[i]?).map process_shape =
      (tm.processes[i]?).map process_shape := by
    intro i
    by_cases hij : j = i
    · subst hij
      have hjlen : j < tm.processes.length := by
        by_contra hge
        rw [List.getElem?_eq_none (by omega)] at hp
        exact absurd hp (by simp)
      rw [List.getElem?_set_self hjlen, hp]
      show some (process_shape p2) = some (process_shape p)
      rw [hshape]
    · rw [List.getElem?_set_ne hij]
  by_cases hid : t.id ≠ tm.current_thread_id
  · rw [if_pos hid] at h
    simp only [Option.some.injEq, Prod.mk.injEq] at h
    rw [← h.1]
    exact ⟨by simp, hset⟩
  · rw [if_neg hid] at h
    cases hnp : TaskManager.next_process
        { tm with processes := tm.processes.set j p2 } with
    | none => simp only [hnp] at h; exact Option.noConfusion h
    | some tm3q =>
    obtain ⟨tm3, q⟩ := tm3q
    simp only [hnp] at h
    have htm3 : tm3.processes = tm.processes.set j p2 :=
      next_process_processes { tm with processes := tm.processes.set j p2 }
        tm3 q hnp
    by_cases hqid : q.id ≠ tm.current_process_id
    · rw [if_pos hqid] at h
      cases hgt : q.get_current_thread with
      | none => simp only [hgt] at h; exact Option.noConfusion h
      | some tq =>
        simp only [hgt, Option.some.injEq, Prod.mk.injEq] at h
        rw [← h.1, htm3]
        exact ⟨by simp, hset⟩
    · rw [if_neg hqid] at h
      simp only [Option.some.injEq, Prod.mk.injEq] at h
      rw [← h.1, htm3]
      exact ⟨by simp, hset⟩

/-- The scheduler state reached from `tmTwoThreads` by one `next_task`. -/
def tmTwoThreadsAfter : TaskManager :=
  { processes := [{ id := 0, name := "kernel",
                    threads := [{ id := 0, context := 100 },
                                { id := 1, context := 101 }],
                    current_thread_id := 1, current_thread_index := 1 }],
    current_process_id := 0, current_process_index := 0,
    current_thread_id := 0 }

/-- Witness for `next_task_frame_c10` on the concrete two-thread state. -/
theorem next_task_frame_c10_witness :
    tmTwoThreadsAfter.processes.length = tmTwoThreads.processes.length ∧
    ∀ i : Nat, (tmTwoThreadsAfter.processes[i]?).map process_shape =
      (tmTwoThreads.processes[i]?).map process_shape :=
  next_task_frame_c10 tmTwoThreads 100 tmTwoThreadsAfter 101 rfl

/-- C10 counterexample: the first `next_task` from the reachable two-thread
state changes `processes[0].current_thread_id` from 0 to 1, a field outside
the claim's list of fields that may change. -/
theorem next_task_changes_process_ctid_c10 :
    ((next_task tmTwoThreads 100).map
      (fun s => (s.1.processes[0]?).map Process.current_thread_id)) =
        some (some 1) ∧
    (tmTwoThreads.processes[0]?).map Process.current_thread_id = some 0 := by
  constructor <;> rfl

end OmphalOS

namespace OmphalOS

/-! ## CPU (`src/riscv/src/cpu.rs`) and traps (`src/riscv/src/exception.rs`)

The debug-only fields `inst_counter` and `is_count` (and the no-op `debug`
calls) are omitted; `bus` is inlined as the `dram` byte list.  `lib.rs`
declares `pub mod csr`, but `csr.rs` itself is not under `src/`, so the CSR
bank `State` below is modelled from the spec. -/

/-- Two's-complement reading of the low 32 bits (`as i32`). -/
def int32 (x : Nat) : Int :=
  if x % 2 ^ 32 < 2 ^ 31 then ((x % 2 ^ 32 : Nat) : Int)
  else ((x % 2 ^ 32 : Nat) : Int) - 2 ^ 32

/-- Low 32 bits of an integer (`as u32` on a signed value). -/
def toU32 (i : Int) : Nat := (i % (2 ^ 32 : Int)).toNat

/-- Embedding of `u32::wrapping_add`. -/
def wadd (a b : Nat) : Nat := (a + b) % 2 ^ 32

/-- Embedding of `u32::wrapping_sub`. -/
def wsub (a b : Nat) : Nat := (a + (2 ^ 32 - b % 2 ^ 32)) % 2 ^ 32

/-- Embedding of `as i8 as i32 as u32` (sign-extend the low byte). -/
def sext8 (x : Nat) : Nat :=
  toU32 (if x % 2 ^ 8 < 2 ^ 7 then (x % 2 ^ 8 : Int) else (x % 2 ^ 8 : Int) - 2 ^ 8)

/-- Embedding of `as i16 as i32 as u32` (sign-extend the low halfword). -/
def sext16 (x : Nat) : Nat :=
  toU32 (if x % 2 ^ 16 < 2 ^ 15 then (x % 2 ^ 16 : Int)
    else (x % 2 ^ 16 : Int) - 2 ^ 16)

/-- Embedding of `!x` on `u32` (bitwise complement). -/
def u32_not (x : Nat) : Nat := 2 ^ 32 - 1 - x % 2 ^ 32

/-- The privileged mode (`Mode::User = 0b00`, `Mode::Machine = 0b11`, plus
`Debug`). -/
inductive Mode where
  | user
  | machine
  | debug
deriving DecidableEq, Repr

/-- Modelled from the spec: `src/riscv/src/csr.rs` is declared in `lib.rs` but
its source is not under `src/`.  Per the spec (§6), the CSR bank holds
`MSTATUS MEPC MCAUSE MTVAL MTVEC MIE MIP FCSR` at their standard addresses
with plain word-sized read/write access, bit-field access to the mstatus
fields `MIE` (bit 3), `MPIE` (bit 7), `MPP` (bits 11..12) and `MPRV`
(bit 17), and single-bit access (`write_bit`, used for `FCSR` bit 3). -/
structure State where
  csrs : Nat → Nat

/-- CSR address of `mstatus`. -/
def MSTATUS : Nat := 0x300
/-- CSR address of `mtvec`. -/
def MTVEC : Nat := 0x305
/-- CSR address of `mepc`. -/
def MEPC : Nat := 0x341
/-- CSR address of `mcause`. -/
def MCAUSE : Nat := 0x342
/-- CSR address of `mtval`. -/
def MTVAL : Nat := 0x343
/-- CSR address of `fcsr`. -/
def FCSR : Nat := 0x003

/-- Bit position and width of the mstatus `MIE` field. -/
def MSTATUS_MIE : Nat × Nat := (3, 1)
/-- Bit position and width of the mstatus `MPIE` field. -/
def MSTATUS_MPIE : Nat × Nat := (7, 1)
/-- Bit position and width of the mstatus `MPP` field. -/
def MSTATUS_MPP : Nat × Nat := (11, 2)
/-- Bit position and width of the mstatus `MPRV` field. -/
def MSTATUS_MPRV : Nat × Nat := (17, 1)

/-- Modelled from the spec: plain CSR read. -/
def State.read (s : State) (addr : Nat) : Nat := s.csrs addr

/-- Modelled from the spec: plain CSR write (values are `u32`). -/
def State.write (s : State) (addr v : Nat) : State :=
  ⟨fun a => if a = addr then v % 2 ^ 32 else s.csrs a⟩

/-- Modelled from the spec: read an mstatus bit field. -/
def State.read_mstatus (s : State) (f : Nat × Nat) : Nat :=
  (s.read MSTATUS >>> f.1) % 2 ^ f.2

/-- Modelled from the spec: overwrite an mstatus bit field. -/
def State.write_mstatus (s : State) (f : Nat × Nat) (v : Nat) : State :=
  s.write MSTATUS (s.read MSTATUS % 2 ^ f.1
    + ((s.read MSTATUS >>> (f.1 + f.2)) <<< (f.1 + f.2))
    + ((v % 2 ^ f.2) <<< f.1))

/-- Modelled from the spec: overwrite one bit of a CSR. -/
def State.write_bit (s : State) (addr bit v : Nat) : State :=
  s.write addr (s.read addr % 2 ^ bit
    + ((s.read addr >>> (bit + 1)) <<< (bit + 1)) + ((v % 2) <<< bit))

/-- Modelled from the spec: read one bit of a CSR. -/
def State.read_bit (s : State) (addr bit : Nat) : Nat :=
  (s.read addr >>> bit) % 2

/-- Embedding of `Cpu` (minus the debug-only instruction counter). -/
structure Cpu where
  xregs : Nat → Nat
  pc : Nat
  state : State
  mode : Mode
  dram : List Nat
  reservation_set : List Nat
  idle : Bool
  pre_inst : Nat

/-- Embedding of `XRegisters::write`: register 0 is hardwired to zero. -/
def xwrite (regs : Nat → Nat) (idx v : Nat) : Nat → Nat :=
  if idx = 0 then regs else fun j => if j = idx then v else regs j

/-- Embedding of `Cpu::read`: with `MPRV = 1` the mode is switched to `MPP`
for the access and restored afterwards; the bus pays no attention to the
mode, so the net effect is the plain bus read. -/
def cpu_read (c : Cpu) (addr size : Nat) : Option (Except Exception Nat) :=
  bus_read c.dram addr size

/-- Embedding of `Cpu::write`: the same restored `MPRV` mode switch, plus
removal of the target address from the reservation set, then the bus write. -/
def cpu_write (c : Cpu) (addr v size : Nat) : Option (Cpu × Option Exception) :=
  let c1 := { c with reservation_set :=
    if c.reservation_set.contains addr then
      c.reservation_set.filter (fun x => x ≠ addr)
    else c.reservation_set }
  match bus_write c.dram addr v size with
  | none => none
  | some (Except.error e) => some (c1, some e)
  | some (Except.ok d2) => some ({ c1 with dram := d2 }, none)

/-- Embedding of `Cpu::fetch`: a bus error on fetch is remapped to
`InstructionAccessFault`. -/
def fetch (c : Cpu) : Option (Except Exception Nat) :=
  match bus_read c.dram c.pc 32 with
  | none => none
  | some (Except.ok v) => some (Except.ok v)
  | some (Except.error _) => some (Except.error Exception.instructionAccessFault)

/-- I-type immediate `((inst as i32) >> 20) as u32`. -/
def immI (inst : Nat) : Nat := toU32 ((int32 inst).fdiv (2 ^ 20))

/-- S-type immediate. -/
def immS (inst : Nat) : Nat :=
  toU32 ((int32 (inst &&& 0xfe000000)).fdiv (2 ^ 20)) ||| (inst >>> 7 &&& 0x1f)

/-- B-type immediate. -/
def immB (inst : Nat) : Nat :=
  toU32 ((int32 (inst &&& 0x80000000)).fdiv (2 ^ 19)) ||| ((inst &&& 0x80) <<< 4)
    ||| (inst >>> 20 &&& 0x7e0) ||| (inst >>> 7 &&& 0x1e)

/-- J-type immediate. -/
def immJ (inst : Nat) : Nat :=
  toU32 ((int32 (inst &&& 0x80000000)).fdiv (2 ^ 11)) ||| (inst &&& 0xff000)
    ||| (inst >>> 9 &&& 0x800) ||| (inst >>> 20 &&& 0x7fe)

/-- Shorthand for the frequent source pattern
`self.xregs.write(rd, v); Ok(())`. -/
def wr (c : Cpu) (rd v : Nat) : Option (Cpu × Option Exception) :=
  some ({ c with xregs := xwrite c.xregs rd v }, none)

/-- Shorthand for the branch-taken source pattern
`self.pc = self.pc.wrapping_add(imm).wrapping_sub(4); Ok(())`. -/
def jp (c : Cpu) (imm : Nat) : Option (Cpu × Option Exception) :=
  some ({ c with pc := wsub (wadd c.pc imm) 4 }, none)

/-- Shorthand for a load arm: read memory, then extend with `f`
and write `rd` (an `Err` propagates with the CPU unchanged). -/
def loadArm (c : Cpu) (addr size rd : Nat) (f : Nat → Nat) :
    Option (Cpu × Option Exception) :=
  match cpu_read c addr size with
  | none => none
  | some (Except.error e) => some (c, some e)
  | some (Except.ok val) => wr c rd (f val)

/-- Embedding of `Cpu::execute_general`.  The result is `none` for a panic
(`uret`), and otherwise the updated CPU together with `none` for `Ok(())` or
`some e` for `Err(e)`.  The nested `match` on field values of the source is
rendered as an if-chain in source order. -/
def execute_general (c : Cpu) (inst : Nat) : Option (Cpu × Option Exception) :=
  let opcode := inst &&& 0x7f
  let rd := (inst &&& 0xf80) >>> 7
  let rs1 := (inst &&& 0xf8000) >>> 15
  let rs2 := (inst &&& 0x1f00000) >>> 20
  let funct3 := (inst &&& 0x7000) >>> 12
  let funct7 := (inst &&& 0xfe000000) >>> 25
  if opcode = 0x03 then
    let addr := wadd (c.xregs rs1) (immI inst)
    if funct3 = 0x0 then loadArm c addr 8 rd sext8
    else if funct3 = 0x1 then loadArm c addr 16 rd sext16
    else if funct3 = 0x2 then loadArm c addr 32 rd (fun v => v)
    else if funct3 = 0x4 then loadArm c addr 8 rd (fun v => v)
    else if funct3 = 0x5 then loadArm c addr 16 rd (fun v => v)
    else some (c, some (Exception.illegalInstruction inst))
  else if opcode = 0x0f then
    if funct3 = 0x0 then some (c, none)
    else if funct3 = 0x1 then some (c, none)
    else some (c, some (Exception.illegalInstruction inst))
  else if opcode = 0x13 then
    let imm := immI inst
    let funct6 := funct7 >>> 1
    if funct3 = 0x0 then wr c rd (wadd (c.xregs rs1) imm)
    else if funct3 = 0x1 then
      wr c rd ((c.xregs rs1 <<< (inst >>> 20 &&& 0x1f)) % 2 ^ 32)
    else if funct3 = 0x2 then
      wr c rd (if int32 (c.xregs rs1) < int32 imm then 1 else 0)
    else if funct3 = 0x3 then
      wr c rd (if c.xregs rs1 < imm then 1 else 0)
    else if funct3 = 0x4 then wr c rd (c.xregs rs1 ^^^ imm)
    else if funct3 = 0x5 then
      if funct6 = 0x00 then wr c rd (c.xregs rs1 >>> (inst >>> 20 &&& 0x1f))
      else if funct6 = 0x10 then
        wr c rd (toU32 ((int32 (c.xregs rs1)).fdiv (2 ^ (inst >>> 20 &&& 0x1f))))
      else some (c, some (Exception.illegalInstruction inst))
    else if funct3 = 0x6 then wr c rd (c.xregs rs1 ||| imm)
    else if funct3 = 0x7 then wr c rd (c.xregs rs1 &&& imm)
    else some (c, some (Exception.illegalInstruction inst))
  else if opcode = 0x17 then
    wr c rd (wadd c.pc (inst &&& 0xfffff000))
  else if opcode = 0x23 then
    let addr := wadd (c.xregs rs1) (immS inst)
    if funct3 = 0x0 then cpu_write c addr (c.xregs rs2) 8
    else if funct3 = 0x1 then cpu_write c addr (c.xregs rs2) 16
    else if funct3 = 0x2 then cpu_write c addr (c.xregs rs2) 32
    else some (c, some (Exception.illegalInstruction inst))
  else if opcode = 0x33 then
    if funct3 = 0x0 ∧ funct7 = 0x00 then
      wr c rd (wadd (c.xregs rs1) (c.xregs rs2))
    else if funct3 = 0x0 ∧ funct7 = 0x01 then
      wr c rd (toU32 (int32 (c.xregs rs1) * int32 (c.xregs rs2)))
    else if funct3 = 0x0 ∧ funct7 = 0x20 then
      wr c rd (wsub (c.xregs rs1) (c.xregs rs2))
    else if funct3 = 0x1 ∧ funct7 = 0x00 then
      wr c rd ((c.xregs rs1 <<< (c.xregs rs2 &&& 0x1f)) % 2 ^ 32)
    else if funct3 = 0x1 ∧ funct7 = 0x01 then
      wr c rd (toU32 ((int32 (c.xregs rs1) * int32 (c.xregs rs2)).fdiv (2 ^ 64)))
    else if funct3 = 0x2 ∧ funct7 = 0x00 then
      wr c rd (if int32 (c.xregs rs1) < int32 (c.xregs rs2) then 1 else 0)
    else if funct3 = 0x2 ∧ funct7 = 0x01 then
      wr c rd ((((((int32 (c.xregs rs1)) % (2 ^ 128 : Int)).toNat * c.xregs rs2)
        % 2 ^ 128) >>> 64) % 2 ^ 32)
    else if funct3 = 0x3 ∧ funct7 = 0x00 then
      wr c rd (if c.xregs rs1 < c.xregs rs2 then 1 else 0)
    else if funct3 = 0x3 ∧ funct7 = 0x01 then
      wr c rd (((c.xregs rs1 * c.xregs rs2 % 2 ^ 128) >>> 64) % 2 ^ 32)
    else if funct3 = 0x4 ∧ funct7 = 0x00 then
      wr c rd (c.xregs rs1 ^^^ c.xregs rs2)
    else if funct3 = 0x4 ∧ funct7 = 0x01 then
      if int32 (c.xregs rs2) = 0 then
        some ({ c with state := c.state.write_bit FCSR 3 1,
                       xregs := xwrite c.xregs rd (2 ^ 32 - 1) }, none)
      else if int32 (c.xregs rs1) = -(2 ^ 31) ∧ int32 (c.xregs rs2) = -1 then
        wr c rd (toU32 (int32 (c.xregs rs1)))
      else wr c rd (toU32 ((int32 (c.xregs rs1)).tdiv (int32 (c.xregs rs2))))
    else if funct3 = 0x5 ∧ funct7 = 0x00 then
      wr c rd (c.xregs rs1 >>> (c.xregs rs2 &&& 0x1f))
    else if funct3 = 0x5 ∧ funct7 = 0x01 then
      if c.xregs rs2 = 0 then
        some ({ c with state := c.state.write_bit FCSR 3 1,
                       xregs := xwrite c.xregs rd (2 ^ 32 - 1) }, none)
      else wr c rd (c.xregs rs1 / c.xregs rs2)
    else if funct3 = 0x5 ∧ funct7 = 0x20 then
      wr c rd (toU32 ((int32 (c.xregs rs1)).fdiv (2 ^ (c.xregs rs2 &&& 0x1f))))
    else if funct3 = 0x6 ∧ funct7 = 0x00 then
      wr c rd (c.xregs rs1 ||| c.xregs rs2)
    else if funct3 = 0x6 ∧ funct7 = 0x01 then
      if int32 (c.xregs rs2) = 0 then
        wr c rd (toU32 (int32 (c.xregs rs1)))
      else if int32 (c.xregs rs1) = -(2 ^ 31) ∧ int32 (c.xregs rs2) = -1 then
        wr c rd 0
      else wr c rd (toU32 ((int32 (c.xregs rs1)).tmod (int32 (c.xregs rs2))))
    else if funct3 = 0x7 ∧ funct7 = 0x00 then
      wr c rd (c.xregs rs1 &&& c.xregs rs2)
    else if funct3 = 0x7 ∧ funct7 = 0x01 then
      if c.xregs rs2 = 0 then wr c rd (c.xregs rs1)
      else wr c rd (c.xregs rs1 % c.xregs rs2)
    else some (c, some (Exception.illegalInstruction inst))
  else if opcode = 0x37 then
    wr c rd (inst &&& 0xfffff000)
  else if opcode = 0x63 then
    let imm := immB inst
    if funct3 = 0x0 then
      if c.xregs rs1 = c.xregs rs2 then jp c imm else some (c, none)
    else if funct3 = 0x1 then
      if c.xregs rs1 ≠ c.xregs rs2 then jp c imm else some (c, none)
    else if funct3 = 0x4 then
      if int32 (c.xregs rs1) < int32 (c.xregs rs2) then jp c imm
      else some (c, none)
    else if funct3 = 0x5 then
      if int32 (c.xregs rs2) ≤ int32 (c.xregs rs1) then jp c imm
      else some (c, none)
    else if funct3 = 0x6 then
      if c.xregs rs1 < c.xregs rs2 then jp c imm else some (c, none)
    else if funct3 = 0x7 then
      if c.xregs rs2 ≤ c.xregs rs1 then jp c imm else some (c, none)
    else some (c, some (Exception.illegalInstruction inst))
  else if opcode = 0x67 then
    let target := toU32 (int32 (c.xregs rs1) + (int32 inst).fdiv (2 ^ 20))
    some ({ c with pc := wsub (target - target % 2) 4,
                   xregs := xwrite c.xregs rd (wadd c.pc 4) }, none)
  else if opcode = 0x6f then
    some ({ c with xregs := xwrite c.xregs rd (wadd c.pc 4),
                   pc := wsub (wadd c.pc (immJ inst)) 4 }, none)
  else if opcode = 0x73 then
    let csr_addr := inst >>> 20 &&& 0xfff
    if funct3 = 0x0 then
      if rs2 = 0x0 ∧ funct7 = 0x0 then
        match c.mode with
        | Mode.user => some (c, some Exception.environmentCallFromUMode)
        | Mode.machine => some (c, some Exception.environmentCallFromMMode)
        | Mode.debug => some (c, some (Exception.illegalInstruction inst))
      else if rs2 = 0x1 ∧ funct7 = 0x0 then
        some (c, some Exception.breakpoint)
      else if rs2 = 0x2 ∧ funct7 = 0x0 then none
      else if rs2 = 0x2 ∧ funct7 = 0x18 then
        let c1 := { c with pc := wsub (c.state.read MEPC) 4 }
        let c2 :=
          if c.state.read_mstatus MSTATUS_MPP = 0b00 then
            { c1 with state := c1.state.write_mstatus MSTATUS_MPRV 0,
                      mode := Mode.user }
          else if c.state.read_mstatus MSTATUS_MPP = 0b11 then
            { c1 with mode := Mode.machine }
          else { c1 with mode := Mode.debug }
        let s1 := c2.state.write_mstatus MSTATUS_MIE
          (c2.state.read_mstatus MSTATUS_MPIE)
        let s2 := s1.write_mstatus MSTATUS_MPIE 1
        some ({ c2 with state := s2.write_mstatus MSTATUS_MPP 0 }, none)
      else if rs2 = 0x5 ∧ funct7 = 0x8 then
        some ({ c with idle := true }, none)
      else if funct7 = 0x9 then some (c, none)
      else if funct7 = 0x11 then some (c, none)
      else if funct7 = 0x51 then some (c, none)
      else some (c, some (Exception.illegalInstruction inst))
    else if funct3 = 0x1 then
      some ({ c with state := c.state.write csr_addr (c.xregs rs1),
                     xregs := xwrite c.xregs rd (c.state.read csr_addr) }, none)
    else if funct3 = 0x2 then
      some ({ c with state := c.state.write csr_addr
                       (c.state.read csr_addr ||| c.xregs rs1),
                     xregs := xwrite c.xregs rd (c.state.read csr_addr) }, none)
    else if funct3 = 0x3 then
      some ({ c with state := c.state.write csr_addr
                       (c.state.read csr_addr &&& u32_not (c.xregs rs1)),
                     xregs := xwrite c.xregs rd (c.state.read csr_addr) }, none)
    else if funct3 = 0x5 then
      some ({ c with xregs := xwrite c.xregs rd (c.state.read csr_addr),
                     state := c.state.write csr_addr rs1 }, none)
    else if funct3 = 0x6 then
      some ({ c with state := c.state.write csr_addr
                       (c.state.read csr_addr ||| rs1),
                     xregs := xwrite c.xregs rd (c.state.read csr_addr) }, none)
    else if funct3 = 0x7 then
      some ({ c with state := c.state.write csr_addr
                       (c.state.read csr_addr &&& u32_not rs1),
                     xregs := xwrite c.xregs rd (c.state.read csr_addr) }, none)
    else some (c, some (Exception.illegalInstruction inst))
  else some (c, some (Exception.illegalInstruction inst))

/-- Embedding of `Cpu::execute`: idle short-circuit, fetch, decode/execute,
then `pc += 4` and `pre_inst` update on success. -/
def Cpu.execute (c : Cpu) : Option (Cpu × Except Exception Nat) :=
  if c.idle then some (c, Except.ok 0)
  else
    match fetch c with
    | none => none
    | some (Except.error e) => some (c, Except.error e)
    | some (Except.ok inst) =>
      match execute_general c inst with
      | none => none
      | some (c2, some e) => some (c2, Except.error e)
      | some (c2, none) =>
        some ({ c2 with pc := wadd c2.pc 4, pre_inst := inst }, Except.ok inst)

/-- All the trap kinds (`exception.rs`). -/
inductive Trap where
  | contained
  | requested
  | invisible
  | fatal
deriving DecidableEq, Repr

/-- Embedding of `Exception::exception_code`. -/
def exception_code : Exception → Nat
  | Exception.instructionAddressMisaligned => 0
  | Exception.instructionAccessFault => 1
  | Exception.illegalInstruction _ => 2
  | Exception.breakpoint => 3
  | Exception.loadAddressMisaligned => 4
  | Exception.loadAccessFault => 5
  | Exception.storeAMOAddressMisaligned => 6
  | Exception.storeAMOAccessFault => 7
  | Exception.environmentCallFromUMode => 8
  | Exception.environmentCallFromMMode => 11
  | Exception.instructionPageFault _ => 12
  | Exception.loadPageFault _ => 13
  | Exception.storeAMOPageFault _ => 15

/-- Embedding of `Exception::epc`: breakpoints, ecalls and page faults record
the faulting pc itself, everything else `pc.wrapping_add(4)`. -/
def epc (e : Exception) (pc : Nat) : Nat :=
  match e with
  | Exception.breakpoint => pc
  | Exception.environmentCallFromUMode => pc
  | Exception.environmentCallFromMMode => pc
  | Exception.instructionPageFault _ => pc
  | Exception.loadPageFault _ => pc
  | Exception.storeAMOPageFault _ => pc
  | _ => wadd pc 4

/-- Embedding of `Exception::trap_value`. -/
def trap_value (e : Exception) (pc : Nat) : Nat :=
  match e with
  | Exception.instructionAddressMisaligned => pc
  | Exception.instructionAccessFault => pc
  | Exception.breakpoint => pc
  | Exception.loadAddressMisaligned => pc
  | Exception.loadAccessFault => pc
  | Exception.storeAMOAddressMisaligned => pc
  | Exception.storeAMOAccessFault => pc
  | Exception.instructionPageFault val => val
  | Exception.loadPageFault val => val
  | Exception.storeAMOPageFault val => val
  | Exception.illegalInstruction val => val
  | _ => 0

/-- The trap disposition returned at the end of `Exception::take_trap`. -/
def trap_disposition (e : Exception) : Trap :=
  match e with
  | Exception.instructionAddressMisaligned => Trap.fatal
  | Exception.instructionAccessFault => Trap.fatal
  | Exception.illegalInstruction _ => Trap.invisible
  | Exception.breakpoint => Trap.requested
  | Exception.loadAddressMisaligned => Trap.fatal
  | Exception.loadAccessFault => Trap.fatal
  | Exception.storeAMOAddressMisaligned => Trap.fatal
  | Exception.storeAMOAccessFault => Trap.fatal
  | Exception.environmentCallFromUMode => Trap.requested
  | Exception.environmentCallFromMMode => Trap.requested
  | Exception.instructionPageFault _ => Trap.invisible
  | Exception.loadPageFault _ => Trap.invisible
  | Exception.storeAMOPageFault _ => Trap.invisible

/-- Embedding of `Exception::take_trap`: enter machine mode, jump to
`mtvec & !1`, record `mepc = epc & !1`, `mcause`, and
`mtval = trap_value(epc(pc))` (note the argument is the already-shifted
`exception_pc`, not the raw pc), shift the mstatus interrupt-enable stack and
record the previous mode in `MPP`; a `Debug` previous mode panics. -/
def take_trap (e : Exception) (c : Cpu) : Option (Cpu × Trap) :=
  let exception_pc := epc e c.pc
  let s1 := c.state.write MEPC (exception_pc - exception_pc % 2)
  let s2 := s1.write MCAUSE (exception_code e)
  let s3 := s2.write MTVAL (trap_value e exception_pc)
  let s4 := s3.write_mstatus MSTATUS_MPIE (s3.read_mstatus MSTATUS_MIE)
  let s5 := s4.write_mstatus MSTATUS_MIE 0
  match c.mode with
  | Mode.user =>
    some ({ c with mode := Mode.machine,
                   pc := c.state.read MTVEC - c.state.read MTVEC % 2,
                   state := s5.write_mstatus MSTATUS_MPP 0 },
      trap_disposition e)
  | Mode.machine =>
    some ({ c with mode := Mode.machine,
                   pc := c.state.read MTVEC - c.state.read MTVEC % 2,
                   state := s5.write_mstatus MSTATUS_MPP 3 },
      trap_disposition e)
  | Mode.debug => none

end OmphalOS

namespace OmphalOS

/-! ### CPU theorems: `mret` (C5) -/

/-- Reading back the mstatus `MIE` field just written. -/
theorem wm_rm_MIE (s : State) (v : Nat) :
    (s.write_mstatus MSTATUS_MIE v).read_mstatus MSTATUS_MIE = v % 2 := by
  simp only [State.write_mstatus, State.read_mstatus, State.write, State.read,
    MSTATUS_MIE, Nat.shiftLeft_eq, Nat.shiftRight_eq_div_pow, if_pos rfl,
    if_true]
  omega

/-- Reading back the mstatus `MPIE` field just written. -/
theorem wm_rm_MPIE (s : State) (v : Nat) :
    (s.write_mstatus MSTATUS_MPIE v).read_mstatus MSTATUS_MPIE = v % 2 := by
  simp only [State.write_mstatus, State.read_mstatus, State.write, State.read,
    MSTATUS_MPIE, Nat.shiftLeft_eq, Nat.shiftRight_eq_div_pow, if_pos rfl,
    if_true]
  omega

/-- Reading back the mstatus `MPP` field just written. -/
theorem wm_rm_MPP (s : State) (v : Nat) :
    (s.write_mstatus MSTATUS_MPP v).read_mstatus MSTATUS_MPP = v % 4 := by
  simp only [State.write_mstatus, State.read_mstatus, State.write, State.read,
    MSTATUS_MPP, Nat.shiftLeft_eq, Nat.shiftRight_eq_div_pow, if_pos rfl,
    if_true]
  omega

/-- Reading back the mstatus `MPRV` field just written. -/
theorem wm_rm_MPRV (s : State) (v : Nat) :
    (s.write_mstatus MSTATUS_MPRV v).read_mstatus MSTATUS_MPRV = v % 2 := by
  simp only [State.write_mstatus, State.read_mstatus, State.write, State.read,
    MSTATUS_MPRV, Nat.shiftLeft_eq, Nat.shiftRight_eq_div_pow, if_pos rfl,
    if_true]
  omega

/-- Writing mstatus `MPP` leaves the `MIE` field unchanged. -/
theorem wm_rm_MPP_MIE (s : State) (v : Nat) :
    (s.write_mstatus MSTATUS_MPP v).read_mstatus MSTATUS_MIE =
      s.read_mstatus MSTATUS_MIE := by
  simp only [State.write_mstatus, State.read_mstatus, State.write, State.read,
    MSTATUS_MPP, MSTATUS_MIE, Nat.shiftLeft_eq, Nat.shiftRight_eq_div_pow,
    if_pos rfl, if_true]
  omega

/-- Writing mstatus `MPIE` leaves the `MIE` field unchanged. -/
theorem wm_rm_MPIE_MIE (s : State) (v : Nat) :
    (s.write_mstatus MSTATUS_MPIE v).read_mstatus MSTATUS_MIE =
      s.read_mstatus MSTATUS_MIE := by
  simp only [State.write_mstatus, State.read_mstatus, State.write, State.read,
    MSTATUS_MPIE, MSTATUS_MIE, Nat.shiftLeft_eq, Nat.shiftRight_eq_div_pow,
    if_pos rfl, if_true]
  omega

/-- Writing mstatus `MPP` leaves the `MPIE` field unchanged. -/
theorem wm_rm_MPP_MPIE (s : State) (v : Nat) :
    (s.write_mstatus MSTATUS_MPP v).read_mstatus MSTATUS_MPIE =
      s.read_mstatus MSTATUS_MPIE := by
  simp only [State.write_mstatus, State.read_mstatus, State.write, State.read,
    MSTATUS_MPP, MSTATUS_MPIE, Nat.shiftLeft_eq, Nat.shiftRight_eq_div_pow,
    if_pos rfl, if_true]
  omega

/-- Writing mstatus `MPP` leaves the `MPRV` field unchanged. -/
theorem wm_rm_MPP_MPRV (s : State) (v : Nat) :
    (s.write_mstatus MSTATUS_MPP v).read_mstatus MSTATUS_MPRV =
      s.read_mstatus MSTATUS_MPRV := by
  simp only [State.write_mstatus, State.read_mstatus, State.write, State.read,
    MSTATUS_MPP, MSTATUS_MPRV, Nat.shiftLeft_eq, Nat.shiftRight_eq_div_pow,
    if_pos rfl, if_true]
  omega

/-- Writing mstatus `MPIE` leaves the `MPRV` field unchanged. -/
theorem wm_rm_MPIE_MPRV (s : State) (v : Nat) :
    (s.write_mstatus MSTATUS_MPIE v).read_mstatus MSTATUS_MPRV =
      s.read_mstatus MSTATUS_MPRV := by
  simp only [State.write_mstatus, State.read_mstatus, State.write, State.read,
    MSTATUS_MPIE, MSTATUS_MPRV, Nat.shiftLeft_eq, Nat.shiftRight_eq_div_pow,
    if_pos rfl, if_true]
  omega

/-- Writing mstatus `MIE` leaves the `MPRV` field unchanged. -/
theorem wm_rm_MIE_MPRV (s : State) (v : Nat) :
    (s.write_mstatus MSTATUS_MIE v).read_mstatus MSTATUS_MPRV =
      s.read_mstatus MSTATUS_MPRV := by
  simp only [State.write_mstatus, State.read_mstatus, State.write, State.read,
    MSTATUS_MIE, MSTATUS_MPRV, Nat.shiftLeft_eq, Nat.shiftRight_eq_div_pow,
    if_pos rfl, if_true]
  omega

/-- Writing mstatus `MPRV` leaves the `MPIE` field unchanged. -/
theorem wm_rm_MPRV_MPIE (s : State) (v : Nat) :
    (s.write_mstatus MSTATUS_MPRV v).read_mstatus MSTATUS_MPIE =
      s.read_mstatus MSTATUS_MPIE := by
  simp only [State.write_mstatus, State.read_mstatus, State.write, State.read,
    MSTATUS_MPRV, MSTATUS_MPIE, Nat.shiftLeft_eq, Nat.shiftRight_eq_div_pow,
    if_pos rfl, if_true]
  omega

/-- The mstatus `MPIE` field is a single bit. -/
theorem rm_MPIE_mod2 (s : State) :
    s.read_mstatus MSTATUS_MPIE % 2 = s.read_mstatus MSTATUS_MPIE := by
  simp only [State.read_mstatus, MSTATUS_MPIE]
  omega

/-- A DRAM image whose first word (at `DRAM_BASE`) is the `mret` instruction
`0x30200073`, little endian. -/
def mretDram : List Nat := 0x73 :: 0x00 :: 0x20 :: 0x30 :: List.replicate 32764 0

/-- A concrete CPU about to execute `mret` with `mstatus.MPRV = 1` and
`mstatus.MPP = 0b01` and `mepc = 0x1234`. -/
def cpuC5 : Cpu :=
  { xregs := fun _ => 0, pc := DRAM_BASE,
    state := ⟨fun a => if a = MSTATUS then 2 ^ 17 + 2 ^ 11
      else if a = MEPC then 0x1234 else 0⟩,
    mode := Mode.machine, dram := mretDram, reservation_set := [],
    idle := false, pre_inst := 0 }

/-- Reading a 32-bit word at `DRAM_BASE` from a DRAM whose first four bytes
are explicit. -/
theorem dram_read32_cons (b0 b1 b2 b3 : Nat) (l : List Nat) :
    dram_read32 (b0 :: b1 :: b2 :: b3 :: l) DRAM_BASE =
      some (b0 ||| b1 <<< 8 ||| b2 <<< 16 ||| b3 <<< 24) := by
  simp +decide only [dram_read32, List.getElem?_cons, if_true, if_false]

/-- Reading the first word of `mretDram` yields the `mret` encoding. -/
theorem mretDram_read32 : dram_read32 mretDram DRAM_BASE = some 0x30200073 := by
  show dram_read32 (0x73 :: 0x00 :: 0x20 :: 0x30 :: List.replicate 32764 0)
    DRAM_BASE = some 0x30200073
  rw [dram_read32_cons]
  decide

/-- The bus fetch of the first word of `mretDram`. -/
theorem mretDram_bus : bus_read mretDram DRAM_BASE 32 =
    some (Except.ok 0x30200073) := by
  simp +decide only [bus_read, dram_read, mretDram_read32, if_true, if_false,
    Option.map_some']

/-- A successful word read at `pc` makes `fetch` return that word. -/
theorem fetch_eq_of_bus (c : Cpu) (v : Nat)
    (h : bus_read c.dram c.pc 32 = some (Except.ok v)) :
    fetch c = some (Except.ok v) := by
  unfold fetch
  rw [h]

/-- `Cpu.execute` wraps a successful `execute_general` step: `pc` advances by
4 and `pre_inst` records the instruction. -/
theorem execute_wrap (c : Cpu) (inst : Nat) (cm : Cpu)
    (hidle : c.idle = false) (hf : fetch c = some (Except.ok inst))
    (hcm : execute_general c inst = some (cm, none)) :
    Cpu.execute c =
      some ({ cm with pc := wadd cm.pc 4, pre_inst := inst },
        Except.ok inst) := by
  simp +decide only [Cpu.execute, hidle, hf, hcm, if_true, if_false]

/-- C5 counterexample: executing `mret` from a state with `MPP = 0b01`
(which is not the Machine encoding) leaves `mstatus.MPRV = 1`: the code only
clears `MPRV` in the `MPP = 0b00` arm, so the claim "whenever the old MPP was
not the Machine encoding, mstatus.MPRV equals 0" fails. -/
theorem mret_mprv_not_cleared_c5 :
    cpuC5.state.read_mstatus MSTATUS_MPP = 1 ∧
    (Cpu.execute cpuC5).map
      (fun p => (p.1.state.read_mstatus MSTATUS_MPRV, p.1.pc, p.1.mode)) =
      some (1, 0x1234, Mode.debug) := by
  refine ⟨by decide, ?_⟩
  have hf : fetch cpuC5 = some (Except.ok 0x30200073) :=
    fetch_eq_of_bus cpuC5 0x30200073 mretDram_bus
  have hcm : execute_general cpuC5 0x30200073 =
      some ({ cpuC5 with
        pc := wsub (cpuC5.state.read MEPC) 4,
        mode := Mode.debug,
        state := ((cpuC5.state.write_mstatus MSTATUS_MIE
          (cpuC5.state.read_mstatus MSTATUS_MPIE)).write_mstatus
            MSTATUS_MPIE 1).write_mstatus MSTATUS_MPP 0 }, none) := by
    simp +decide only [execute_general, if_true, if_false]
  have hex := execute_wrap cpuC5 0x30200073 _ rfl hf hcm
  rw [hex]
  simp only [Option.map_some', wm_rm_MPP_MPRV, wm_rm_MPIE_MPRV, wm_rm_MIE_MPRV]
  decide

/-- C5 (amended): after executing `mret` via `Cpu.execute` (idle clear, the
fetched word being the `mret` encoding), `pc = mepc`, the mode becomes User
for `MPP = 0b00`, Machine for `MPP = 0b11` and Debug otherwise,
`MIE ← old MPIE`, `MPIE ← 1`, `MPP ← 0` (the User encoding), and `MPRV` is
cleared exactly when the old `MPP` was the User encoding `0b00` — for
`MPP = 0b01` or `0b10` it is left unchanged. -/
theorem mret_via_execute_c5 (c : Cpu) (hidle : c.idle = false)
    (hfetch : fetch c = some (Except.ok 0x30200073))
    (hmepc : c.state.read MEPC < 2 ^ 32)
    (hmst : c.state.read MSTATUS < 2 ^ 32) :
    ∃ c2, Cpu.execute c = some (c2, Except.ok 0x30200073) ∧
      c2.pc = c.state.read MEPC ∧
      (c.state.read_mstatus MSTATUS_MPP = 0 → c2.mode = Mode.user) ∧
      (c.state.read_mstatus MSTATUS_MPP = 3 → c2.mode = Mode.machine) ∧
      (c.state.read_mstatus MSTATUS_MPP ≠ 0 →
        c.state.read_mstatus MSTATUS_MPP ≠ 3 → c2.mode = Mode.debug) ∧
      c2.state.read_mstatus MSTATUS_MIE = c.state.read_mstatus MSTATUS_MPIE ∧
      c2.state.read_mstatus MSTATUS_MPIE = 1 ∧
      c2.state.read_mstatus MSTATUS_MPP = 0 ∧
      (c.state.read_mstatus MSTATUS_MPP = 0 →
        c2.state.read_mstatus MSTATUS_MPRV = 0) ∧
      (c.state.read_mstatus MSTATUS_MPP ≠ 0 →
        c.state.read_mstatus MSTATUS_MPP ≠ 3 →
        c2.state.read_mstatus MSTATUS_MPRV =
          c.state.read_mstatus MSTATUS_MPRV) := by
  have hwrap : ∀ cm : Cpu, execute_general c 0x30200073 = some (cm, none) →
      Cpu.execute c =
        some ({ cm with pc := wadd cm.pc 4, pre_inst := 0x30200073 },
          Except.ok 0x30200073) := by
    intro cm hcm
    simp +decide only [Cpu.execute, hidle, hfetch, hcm, if_true, if_false]
  by_cases h0 : c.state.read_mstatus MSTATUS_MPP = 0
  · have hcm : execute_general c 0x30200073 =
        some ({ c with
          pc := wsub (c.state.read MEPC) 4,
          mode := Mode.user,
          state := (((c.state.write_mstatus MSTATUS_MPRV 0).write_mstatus
            MSTATUS_MIE ((c.state.write_mstatus MSTATUS_MPRV 0).read_mstatus
              MSTATUS_MPIE)).write_mstatus MSTATUS_MPIE 1).write_mstatus
            MSTATUS_MPP 0 }, none) := by
      simp +decide only [execute_general, if_true, if_false, h0]
    refine ⟨_, hwrap _ hcm, ?_, ?_, ?_, ?_, ?_, ?_, ?_, ?_, ?_⟩
    · show wadd (wsub (c.state.read MEPC) 4) 4 = c.state.read MEPC
      simp only [wadd, wsub, State.read]
      simp only [State.read] at hmepc
      omega
    · intro _; rfl
    · intro h3; omega
    · intro hne0 _; exact absurd h0 hne0
    · show ((((c.state.write_mstatus MSTATUS_MPRV 0).write_mstatus MSTATUS_MIE
        ((c.state.write_mstatus MSTATUS_MPRV 0).read_mstatus
          MSTATUS_MPIE)).write_mstatus MSTATUS_MPIE 1).write_mstatus
        MSTATUS_MPP 0).read_mstatus MSTATUS_MIE =
        c.state.read_mstatus MSTATUS_MPIE
      simp only [wm_rm_MPP_MIE, wm_rm_MPIE_MIE, wm_rm_MIE, wm_rm_MPRV_MPIE,
        rm_MPIE_mod2]
    · show ((((c.state.write_mstatus MSTATUS_MPRV 0).write_mstatus MSTATUS_MIE
        ((c.state.write_mstatus MSTATUS_MPRV 0).read_mstatus
          MSTATUS_MPIE)).write_mstatus MSTATUS_MPIE 1).write_mstatus
        MSTATUS_MPP 0).read_mstatus MSTATUS_MPIE = 1
      simp only [wm_rm_MPP_MPIE, wm_rm_MPIE, Nat.reduceMod]
    · show ((((c.state.write_mstatus MSTATUS_MPRV 0).write_mstatus MSTATUS_MIE
        ((c.state.write_mstatus MSTATUS_MPRV 0).read_mstatus
          MSTATUS_MPIE)).write_mstatus MSTATUS_MPIE 1).write_mstatus
        MSTATUS_MPP 0).read_mstatus MSTATUS_MPP = 0
      simp only [wm_rm_MPP, Nat.reduceMod]
    · intro _
      show ((((c.state.write_mstatus MSTATUS_MPRV 0).write_mstatus MSTATUS_MIE
        ((c.state.write_mstatus MSTATUS_MPRV 0).read_mstatus
          MSTATUS_MPIE)).write_mstatus MSTATUS_MPIE 1).write_mstatus
        MSTATUS_MPP 0).read_mstatus MSTATUS_MPRV = 0
      simp only [wm_rm_MPP_MPRV, wm_rm_MPIE_MPRV, wm_rm_MIE_MPRV, wm_rm_MPRV,
        Nat.reduceMod]
    · intro hne0 _; exact absurd h0 hne0
  · by_cases h3 : c.state.read_mstatus MSTATUS_MPP = 3
    · have hcm : execute_general c 0x30200073 =
          some ({ c with
            pc := wsub (c.state.read MEPC) 4,
            mode := Mode.machine,
            state := ((c.state.write_mstatus MSTATUS_MIE
              (c.state.read_mstatus MSTATUS_MPIE)).write_mstatus
                MSTATUS_MPIE 1).write_mstatus MSTATUS_MPP 0 }, none) := by
        simp +decide only [execute_general, if_true, if_false, h0, h3]
      refine ⟨_, hwrap _ hcm, ?_, ?_, ?_, ?_, ?_, ?_, ?_, ?_, ?_⟩
      · show wadd (wsub (c.state.read MEPC) 4) 4 = c.state.read MEPC
        simp only [wadd, wsub, State.read]
        simp only [State.read] at hmepc
        omega
      · intro hz; exact absurd hz h0
      · intro _; rfl
      · intro _ hne3; exact absurd h3 hne3
      · show (((c.state.write_mstatus MSTATUS_MIE (c.state.read_mstatus
          MSTATUS_MPIE)).write_mstatus MSTATUS_MPIE 1).write_mstatus
          MSTATUS_MPP 0).read_mstatus MSTATUS_MIE =
          c.state.read_mstatus MSTATUS_MPIE
        simp only [wm_rm_MPP_MIE, wm_rm_MPIE_MIE, wm_rm_MIE, rm_MPIE_mod2]
      · show (((c.state.write_mstatus MSTATUS_MIE (c.state.read_mstatus
          MSTATUS_MPIE)).write_mstatus MSTATUS_MPIE 1).write_mstatus
          MSTATUS_MPP 0).read_mstatus MSTATUS_MPIE = 1
        simp only [wm_rm_MPP_MPIE, wm_rm_MPIE, Nat.reduceMod]
      · show (((c.state.write_mstatus MSTATUS_MIE (c.state.read_mstatus
          MSTATUS_MPIE)).write_mstatus MSTATUS_MPIE 1).write_mstatus
          MSTATUS_MPP 0).read_mstatus MSTATUS_MPP = 0
        simp only [wm_rm_MPP, Nat.reduceMod]
      · intro hz; exact absurd hz h0
      · intro _ hne3; exact absurd h3 hne3
    · have hcm : execute_general c 0x30200073 =
          some ({ c with
            pc := wsub (c.state.read MEPC) 4,
            mode := Mode.debug,
            state := ((c.state.write_mstatus MSTATUS_MIE
              (c.state.read_mstatus MSTATUS_MPIE)).write_mstatus
                MSTATUS_MPIE 1).write_mstatus MSTATUS_MPP 0 }, none) := by
        simp +decide only [execute_general, if_true, if_false]
        rw [if_neg h0, if_neg h3]
      refine ⟨_, hwrap _ hcm, ?_, ?_, ?_, ?_, ?_, ?_, ?_, ?_, ?_⟩
      · show wadd (wsub (c.state.read MEPC) 4) 4 = c.state.read MEPC
        simp only [wadd, wsub, State.read]
        simp only [State.read] at hmepc
        omega
      · intro hz; exact absurd hz h0
      · intro hz; exact absurd hz h3
      · intro _ _; rfl
      · show (((c.state.write_mstatus MSTATUS_MIE (c.state.read_mstatus
          MSTATUS_MPIE)).write_mstatus MSTATUS_MPIE 1).write_mstatus
          MSTATUS_MPP 0).read_mstatus MSTATUS_MIE =
          c.state.read_mstatus MSTATUS_MPIE
        simp only [wm_rm_MPP_MIE, wm_rm_MPIE_MIE, wm_rm_MIE, rm_MPIE_mod2]
      · show (((c.state.write_mstatus MSTATUS_MIE (c.state.read_mstatus
          MSTATUS_MPIE)).write_mstatus MSTATUS_MPIE 1).write_mstatus
          MSTATUS_MPP 0).read_mstatus MSTATUS_MPIE = 1
        simp only [wm_rm_MPP_MPIE, wm_rm_MPIE, Nat.reduceMod]
      · show (((c.state.write_mstatus MSTATUS_MIE (c.state.read_mstatus
          MSTATUS_MPIE)).write_mstatus MSTATUS_MPIE 1).write_mstatus
          MSTATUS_MPP 0).read_mstatus MSTATUS_MPP = 0
        simp only [wm_rm_MPP, Nat.reduceMod]
      · intro hz; exact absurd hz h0
      · intro _ _
        show (((c.state.write_mstatus MSTATUS_MIE (c.state.read_mstatus
          MSTATUS_MPIE)).write_mstatus MSTATUS_MPIE 1).write_mstatus
          MSTATUS_MPP 0).read_mstatus MSTATUS_MPRV =
          c.state.read_mstatus MSTATUS_MPRV
        simp only [wm_rm_MPP_MPRV, wm_rm_MPIE_MPRV, wm_rm_MIE_MPRV]

/-- A concrete CPU about to execute `mret` with `MPP = 0b00` and `MPRV = 1`. -/
def cpuC5W : Cpu :=
  { xregs := fun _ => 0, pc := DRAM_BASE,
    state := ⟨fun a => if a = MSTATUS then 2 ^ 17 + 2 ^ 7
      else if a = MEPC then 0x1234 else 0⟩,
    mode := Mode.machine, dram := mretDram, reservation_set := [],
    idle := false, pre_inst := 0 }

/-- Witness for `mret_via_execute_c5` at the concrete state `cpuC5W`. -/
theorem mret_via_execute_c5_witness :
    ∃ c2, Cpu.execute cpuC5W = some (c2, Except.ok 0x30200073) ∧
      c2.pc = cpuC5W.state.read MEPC ∧
      (cpuC5W.state.read_mstatus MSTATUS_MPP = 0 → c2.mode = Mode.user) ∧
      (cpuC5W.state.read_mstatus MSTATUS_MPP = 3 → c2.mode = Mode.machine) ∧
      (cpuC5W.state.read_mstatus MSTATUS_MPP ≠ 0 →
        cpuC5W.state.read_mstatus MSTATUS_MPP ≠ 3 → c2.mode = Mode.debug) ∧
      c2.state.read_mstatus MSTATUS_MIE =
        cpuC5W.state.read_mstatus MSTATUS_MPIE ∧
      c2.state.read_mstatus MSTATUS_MPIE = 1 ∧
      c2.state.read_mstatus MSTATUS_MPP = 0 ∧
      (cpuC5W.state.read_mstatus MSTATUS_MPP = 0 →
        c2.state.read_mstatus MSTATUS_MPRV = 0) ∧
      (cpuC5W.state.read_mstatus MSTATUS_MPP ≠ 0 →
        cpuC5W.state.read_mstatus MSTATUS_MPP ≠ 3 →
        c2.state.read_mstatus MSTATUS_MPRV =
          cpuC5W.state.read_mstatus MSTATUS_MPRV) :=
  mret_via_execute_c5 cpuC5W rfl
    (fetch_eq_of_bus cpuC5W 0x30200073 mretDram_bus) (by decide) (by decide)

end OmphalOS
namespace OmphalOS

/-! ### CPU theorems: multiply-high (C2) and division corner cases (C3) -/

/-- The RV32M semantics the claim states for `mulh`: the upper 32 bits of the
64-bit signed×signed product of the two register values. -/
def mulh_rv32_spec (a b : Nat) : Nat :=
  toU32 ((int32 a * int32 b).fdiv (2 ^ 32))

/-- The RV32M semantics the claim states for `mulhu`: the upper 32 bits of
the 64-bit unsigned×unsigned product. -/
def mulhu_rv32_spec (a b : Nat) : Nat :=
  (a % 2 ^ 32) * (b % 2 ^ 32) / 2 ^ 32 % 2 ^ 32

/-- A concrete CPU with `x1 = x2 = 0x10000` (for `mulh x3, x1, x2`). -/
def cpuC2 : Cpu :=
  { xregs := fun i => if i = 1 then 0x10000 else if i = 2 then 0x10000 else 0,
    pc := 0, state := ⟨fun _ => 0⟩, mode := Mode.machine, dram := [],
    reservation_set := [], idle := false, pre_inst := 0 }

/-- A concrete CPU with `x1 = x2 = 0xFFFFFFFF` (for `mulhu x3, x1, x2`). -/
def cpuC2u : Cpu :=
  { xregs := fun i => if i = 1 then 0xFFFFFFFF
      else if i = 2 then 0xFFFFFFFF else 0,
    pc := 0, state := ⟨fun _ => 0⟩, mode := Mode.machine, dram := [],
    reservation_set := [], idle := false, pre_inst := 0 }

/-- C2: the multiply-high arms shift the 128-bit product right by 64 (a
leftover from a 64-bit port), not 32.  Executing `mulh x3, x1, x2`
(`0x022091B3`) with `x1 = x2 = 0x10000` writes 0 to `x3` although the upper
32 bits of the 64-bit product are 1; executing `mulhu x3, x1, x2`
(`0x0220B1B3`) with `x1 = x2 = 0xFFFFFFFF` writes 0 although the RV32M result
is `0xFFFFFFFE` (indeed the code's `mulhu` writes 0 for every input, since a
product of two `u32` values never reaches `2^64`). -/
theorem mulh_shift64_bug_c2 :
    (execute_general cpuC2 0x022091B3).map (fun p => p.1.xregs 3) = some 0 ∧
    mulh_rv32_spec 0x10000 0x10000 = 1 ∧
    (execute_general cpuC2u 0x0220B1B3).map (fun p => p.1.xregs 3) = some 0 ∧
    mulhu_rv32_spec 0xFFFFFFFF 0xFFFFFFFF = 0xFFFFFFFE := by
  refine ⟨rfl, by decide, rfl, by decide⟩

/-- Helper: `toU32` undoes `int32` on a 32-bit value. -/
theorem toU32_int32 {x : Nat} (h : x < 2 ^ 32) : toU32 (int32 x) = x := by
  simp only [toU32, int32, Nat.mod_eq_of_lt h]
  by_cases h1 : x < 2 ^ 31
  · rw [if_pos h1]
    omega
  · rw [if_neg h1]
    omega

/-- A concrete CPU with `x1 = 5`, `x2 = 0` and `FCSR = 0`. -/
def cpuC3 : Cpu :=
  { xregs := fun i => if i = 1 then 5 else 0,
    pc := 0, state := ⟨fun _ => 0⟩, mode := Mode.machine, dram := [],
    reservation_set := [], idle := false, pre_inst := 0 }

/-- C3 counterexample: executing `rem x3, x1, x2` (`0x0220E1B3`) and
`remu x3, x1, x2` (`0x0220F1B3`) with a zero divisor writes the dividend to
`rd` but leaves `FCSR` bit 3 (DZ) clear — only `div`/`divu` set it. -/
theorem rem_does_not_set_dz_c3 :
    (execute_general cpuC3 0x0220E1B3).map
      (fun p => (p.1.xregs 3, p.1.state.read_bit FCSR 3)) = some (5, 0) ∧
    (execute_general cpuC3 0x0220F1B3).map
      (fun p => (p.1.xregs 3, p.1.state.read_bit FCSR 3)) = some (5, 0) := by
  constructor <;> rfl

/-- C3 (amended): with a zero divisor, `div`/`divu` write an all-ones
quotient and set `FCSR` bit 3 (DZ), while `rem`/`remu` write the dividend and
leave the CSR bank (hence DZ) entirely unchanged; for signed overflow
(`INT_MIN / -1`) `div` writes the dividend and `rem` writes 0.  Stated for
`div/divu/rem/remu x3, x1, x2` over all register values. -/
theorem div_rem_corner_cases_c3 (c : Cpu) (hwf : ∀ i, c.xregs i < 2 ^ 32)
    (hfcsr : c.state.read FCSR < 2 ^ 32) :
    (c.xregs 2 = 0 →
      (∃ c2, execute_general c 0x0220C1B3 = some (c2, none) ∧
        c2.xregs 3 = 2 ^ 32 - 1 ∧ c2.state.read_bit FCSR 3 = 1) ∧
      (∃ c2, execute_general c 0x0220D1B3 = some (c2, none) ∧
        c2.xregs 3 = 2 ^ 32 - 1 ∧ c2.state.read_bit FCSR 3 = 1) ∧
      (∃ c2, execute_general c 0x0220E1B3 = some (c2, none) ∧
        c2.xregs 3 = c.xregs 1 ∧ c2.state = c.state) ∧
      (∃ c2, execute_general c 0x0220F1B3 = some (c2, none) ∧
        c2.xregs 3 = c.xregs 1 ∧ c2.state = c.state)) ∧
    (c.xregs 1 = 2 ^ 31 → c.xregs 2 = 2 ^ 32 - 1 →
      (∃ c2, execute_general c 0x0220C1B3 = some (c2, none) ∧
        c2.xregs 3 = 2 ^ 31) ∧
      (∃ c2, execute_general c 0x0220E1B3 = some (c2, none) ∧
        c2.xregs 3 = 0)) := by
  simp only [State.read] at hfcsr
  have hr3 : ∀ v : Nat, xwrite c.xregs 3 v 3 = v := by
    intro v
    simp +decide only [xwrite, if_true, if_false]
  have hdiv : execute_general c 0x0220C1B3 =
      (if int32 (c.xregs 2) = 0 then
        some ({ c with state := c.state.write_bit FCSR 3 1,
                       xregs := xwrite c.xregs 3 (2 ^ 32 - 1) }, none)
      else if int32 (c.xregs 1) = -(2 ^ 31) ∧ int32 (c.xregs 2) = -1 then
        wr c 3 (toU32 (int32 (c.xregs 1)))
      else wr c 3 (toU32 ((int32 (c.xregs 1)).tdiv (int32 (c.xregs 2))))) := rfl
  have hdivu : execute_general c 0x0220D1B3 =
      (if c.xregs 2 = 0 then
        some ({ c with state := c.state.write_bit FCSR 3 1,
                       xregs := xwrite c.xregs 3 (2 ^ 32 - 1) }, none)
      else wr c 3 (c.xregs 1 / c.xregs 2)) := rfl
  have hrem : execute_general c 0x0220E1B3 =
      (if int32 (c.xregs 2) = 0 then wr c 3 (toU32 (int32 (c.xregs 1)))
      else if int32 (c.xregs 1) = -(2 ^ 31) ∧ int32 (c.xregs 2) = -1 then
        wr c 3 0
      else wr c 3 (toU32 ((int32 (c.xregs 1)).tmod (int32 (c.xregs 2))))) := rfl
  have hremu : execute_general c 0x0220F1B3 =
      (if c.xregs 2 = 0 then wr c 3 (c.xregs 1)
      else wr c 3 (c.xregs 1 % c.xregs 2)) := rfl
  constructor
  · intro hz
    have h2i : int32 (c.xregs 2) = 0 := by rw [hz]; decide
    have hdz : ((c.state.write_bit FCSR 3 1).read_bit FCSR 3) = 1 := by
      simp +decide only [State.write_bit, State.read_bit, State.write,
        State.read, FCSR, Nat.shiftLeft_eq, Nat.shiftRight_eq_div_pow,
        if_true, if_false]
      omega
    exact ⟨⟨{ c with state := c.state.write_bit FCSR 3 1,
                     xregs := xwrite c.xregs 3 (2 ^ 32 - 1) },
        by rw [hdiv, if_pos h2i], hr3 _, hdz⟩,
      ⟨{ c with state := c.state.write_bit FCSR 3 1,
                xregs := xwrite c.xregs 3 (2 ^ 32 - 1) },
        by rw [hdivu, if_pos hz], hr3 _, hdz⟩,
      ⟨{ c with xregs := xwrite c.xregs 3 (toU32 (int32 (c.xregs 1))) },
        by rw [hrem, if_pos h2i]; rfl, (hr3 _).trans (toU32_int32 (hwf 1)), rfl⟩,
      ⟨{ c with xregs := xwrite c.xregs 3 (c.xregs 1) },
        by rw [hremu, if_pos hz]; rfl, hr3 _, rfl⟩⟩
  · intro h1 h2
    have h1i : int32 (c.xregs 1) = -(2 ^ 31) := by rw [h1]; decide
    have h2i : int32 (c.xregs 2) = -1 := by rw [h2]; decide
    have hne : ¬ int32 (c.xregs 2) = 0 := by rw [h2i]; decide
    have ht : toU32 (int32 (c.xregs 1)) = 2 ^ 31 := by rw [h1i]; decide
    exact ⟨⟨{ c with xregs := xwrite c.xregs 3 (toU32 (int32 (c.xregs 1))) },
        by rw [hdiv, if_neg hne, if_pos ⟨h1i, h2i⟩]; rfl, (hr3 _).trans ht⟩,
      ⟨{ c with xregs := xwrite c.xregs 3 0 },
        by rw [hrem, if_neg hne, if_pos ⟨h1i, h2i⟩]; rfl, hr3 0⟩⟩

/-- Witness for `div_rem_corner_cases_c3`: the zero-divisor conjunct at the
concrete state `cpuC3` (`x1 = 5`, `x2 = 0`). -/
theorem div_rem_corner_cases_c3_witness :
    (∃ c2, execute_general cpuC3 0x0220C1B3 = some (c2, none) ∧
      c2.xregs 3 = 2 ^ 32 - 1 ∧ c2.state.read_bit FCSR 3 = 1) ∧
    (∃ c2, execute_general cpuC3 0x0220E1B3 = some (c2, none) ∧
      c2.xregs 3 = cpuC3.xregs 1 ∧ c2.state = cpuC3.state) :=
  have h := div_rem_corner_cases_c3 cpuC3
    (by intro i; show (if i = 1 then 5 else 0) < 2 ^ 32; split <;> decide)
    (by decide)
  ⟨(h.1 rfl).1, (h.1 rfl).2.2.1⟩

end OmphalOS

namespace OmphalOS

/-! ### CPU theorems: trap value (C4) -/

/-- A concrete CPU at `pc = 0x100` in machine mode with a zeroed CSR bank. -/
def cpuC4 : Cpu :=
  { xregs := fun _ => 0, pc := 0x100, state := ⟨fun _ => 0⟩,
    mode := Mode.machine, dram := [], reservation_set := [],
    idle := false, pre_inst := 0 }

/-- C4 counterexample: `take_trap` for a `LoadAccessFault` raised at
`pc = 0x100` writes `0x104` into `mtval`, not the faulting pc `0x100`:
`trap_value` is applied to the already-advanced `exception_pc = epc(pc) =
pc + 4`, not to the raw pc. -/
theorem take_trap_mtval_plus4_c4 :
    (take_trap Exception.loadAccessFault cpuC4).map
      (fun p => p.1.state.read MTVAL) = some 0x104 := by
  rfl

/-- C4 (amended): for the six fetch/load/store misaligned and access-fault
exception kinds, `take_trap` writes into `mtval` the value
`pc.wrapping_add(4)` — the `epc` of these kinds — rather than the pc of the
faulting instruction itself. -/
theorem take_trap_mtval_c4 (c : Cpu) (e : Exception)
    (he : e = Exception.instructionAccessFault ∨
      e = Exception.instructionAddressMisaligned ∨
      e = Exception.loadAddressMisaligned ∨
      e = Exception.loadAccessFault ∨
      e = Exception.storeAMOAddressMisaligned ∨
      e = Exception.storeAMOAccessFault)
    (hmode : c.mode ≠ Mode.debug) :
    ∃ c2 t, take_trap e c = some (c2, t) ∧
      c2.state.read MTVAL = wadd c.pc 4 := by
  obtain ⟨xr, pc0, st, mode, dr, rs, idl, pi⟩ := c
  rcases he with rfl | rfl | rfl | rfl | rfl | rfl <;>
    cases mode <;>
    first
      | exact absurd rfl hmode
      | refine ⟨_, _, rfl, ?_⟩
        simp +decide only [State.read, State.write, State.write_mstatus,
          State.read_mstatus, MTVAL, MSTATUS, MEPC, MCAUSE, wadd, epc,
          trap_value, if_true, if_false]
        omega

/-- Witness for `take_trap_mtval_c4` at the concrete state `cpuC4`. -/
theorem take_trap_mtval_c4_witness :
    ∃ c2 t, take_trap Exception.loadAccessFault cpuC4 = some (c2, t) ∧
      c2.state.read MTVAL = wadd cpuC4.pc 4 :=
  take_trap_mtval_c4 cpuC4 Exception.loadAccessFault
    (Or.inr (Or.inr (Or.inr (Or.inl rfl)))) (by decide)

end OmphalOS
